import Mathlib

/-!
Shallow embedding of the `hypertoken` client-side environment adapter layer
(`src/python/hypertoken/client.py`, `env.py`, `spaces.py`).

The game server is a black box reachable only over a JSON request/response
protocol; we model it as a state-transition function `Handler S : S → Cmd →
Reply × S`.  The Python client and the two adapter classes are embedded as
pure functions that thread the client/adapter state, return `Except`-style
results for Python exceptions, and additionally report the list of wire
commands sent during the call (the transport trace).

Numeric reply payloads are modelled with `ℚ` (exact rationals standing for
the real-number semantics of the floats on the wire); `±∞` bounds of box
spaces get their own constructors.  float32 narrowing performed by
`numpy` in `spaces.py` is modelled as the identity on these exact values.
-/

namespace HyperToken

abbrev Agent := String

/-- Opaque info dictionaries attached to agents (key/value pairs). -/
abbrev Info := List (String × String)

/-- A scalar bound value appearing in box-space descriptors: a finite float
(modelled exactly as a rational) or `±∞` (`numpy.inf`). -/
inductive FVal where
  | negInf : FVal
  | posInf : FVal
  | finite : ℚ → FVal
deriving DecidableEq, Repr

/-- Wire-format space descriptor (`spaces.py` docstring):
`Discrete: { n: 5 }`, `Box: { shape: [7], low: [...], high: [...] }`,
with `low`/`high` optional.  `none` models an absent JSON key. -/
structure SpaceDict where
  n : Option Nat
  shape : Option (List Nat)
  low : Option (List FVal)
  high : Option (List FVal)
deriving DecidableEq, Repr

/-- Native space object produced by `convert_space` (gymnasium `Discrete`
or `Box`).  A `Box` keeps its bounds flattened (row-major) together with
the shape, matching `space.low.flatten()` used by `space_to_dict`. -/
inductive Space where
  | discrete : Nat → Space
  | box : List FVal → List FVal → List Nat → Space
deriving DecidableEq, Repr

/-- Total number of elements of a shape, `int(np.prod(shape)) if shape else 1`
(`np.prod` of the empty tuple is 1, so a plain product covers both arms). -/
def shapeSize (shape : List Nat) : Nat := shape.foldl (· * ·) 1

/-- `spaces.convert_space`: wire descriptor → native space.
`ValueError` for an unknown format and `numpy` reshape failures are
modelled as `Except.error`.  The float32 cast of the bounds is the
identity in this exact-value model. -/
def convert_space (d : SpaceDict) : Except String Space :=
  match d.n with
  | some n => .ok (.discrete n)
  | none =>
    match d.shape with
    | some shape =>
      let size := shapeSize shape
      let low := d.low.getD (List.replicate size .negInf)
      let high := d.high.getD (List.replicate size .posInf)
      if low.length = size ∧ high.length = size then
        .ok (.box low high shape)
      else
        .error "cannot reshape bounds to shape"
    | none => .error "Unknown space format"

/-- `spaces.space_to_dict`: native space → wire descriptor. -/
def space_to_dict (s : Space) : SpaceDict :=
  match s with
  | .discrete n => ⟨some n, none, none, none⟩
  | .box low high shape => ⟨none, some shape, some low, some high⟩

/-- Server descriptor → native space → descriptor again. -/
def roundTrip (d : SpaceDict) : Except String SpaceDict :=
  (convert_space d).map space_to_dict

/-! ## Wire protocol -/

/-- One JSON command message (`{"cmd": ..., ...}`), one constructor per
server command issued by `client.py`. -/
inductive Cmd where
  | reset : Option Int → Cmd
  | step : Int → Cmd
  | observe : Agent → Cmd
  | last : Cmd
  | agents : Cmd
  | possible_agents : Cmd
  | agent_selection : Cmd
  | observation_space : Agent → Cmd
  | action_space : Agent → Cmd
  | rewards : Cmd
  | terminations : Cmd
  | truncations : Cmd
  | infos : Cmd
  | action_mask : Agent → Cmd
  | render : Cmd
  | close : Cmd
  | ping : Cmd
  | env_info : Cmd
deriving DecidableEq, Repr

/-- One JSON reply message.  Every field is optional — `none` models an
absent key, exactly as Python's `response.get(...)` sees it.  A reply
carrying `error = some msg` is the uniform server-error form. -/
structure Reply where
  error : Option String
  observation : Option (List ℚ)
  reward : Option ℚ
  terminated : Option Bool
  truncated : Option Bool
  info : Option Info
  agents : Option (List Agent)
  possible_agents : Option (List Agent)
  agent : Option Agent
  space : Option SpaceDict
  rewards : Option (List (Agent × ℚ))
  terminations : Option (List (Agent × Bool))
  truncations : Option (List (Agent × Bool))
  infos : Option (List (Agent × Info))
  mask : Option (List Bool)
deriving DecidableEq, Repr

/-- The all-absent reply, to be extended field by field. -/
def Reply.empty : Reply :=
  ⟨none, none, none, none, none, none, none, none, none, none, none, none,
   none, none, none⟩

/-- The black-box server: a deterministic state machine answering one
command per transition. -/
abbrev Handler (S : Type) := S → Cmd → Reply × S

/-- Python exceptions surfaced by the client layer. -/
inductive Err where
  | notConnected : Err
  | serverError : String → Err
  | protocol : String → Err
  | value : String → Err
deriving DecidableEq, Repr

/-! ## `client.py` — `HyperTokenClient` -/

/-- `HyperTokenClient` state: `connected` models `self.ws is not None`,
`server` is the (opaque to the client) server-side state sitting at the
other end of the socket. -/
structure Client (S : Type) where
  connected : Bool
  server : S
deriving DecidableEq, Repr

/-- The result of one client call: the Python return value or exception,
the client/server state after the call, and the list of wire commands the
call sent (in order). -/
abbrev CRes (S : Type) (α : Type) := Except Err α × Client S × List Cmd

/-- `HyperTokenClient._send`: raises `RuntimeError("Not connected...")`
when `self.ws` is `None` (sending nothing), otherwise sends the command,
and raises `RuntimeError("Server error: " ++ msg)` when the reply carries
an `error` field. -/
def sendCmd (h : Handler S) (c : Client S) (cmd : Cmd) : CRes S Reply :=
  if c.connected then
    let rs := h c.server cmd
    let c' : Client S := ⟨true, rs.2⟩
    match rs.1.error with
    | some msg => (.error (.serverError ("Server error: " ++ msg)), c', [cmd])
    | none => (.ok rs.1, c', [cmd])
  else
    (.error .notConnected, c, [])

/-- Extract a reply field after a successful `_send`; a missing field is a
Python `KeyError`, modelled as `Err.protocol`. -/
def extractField (r : CRes S Reply) (name : String) (f : Reply → Option α) :
    CRes S α :=
  match r with
  | (.ok reply, c, t) =>
    match f reply with
    | some v => (.ok v, c, t)
    | none => (.error (.protocol name), c, t)
  | (.error e, c, t) => (.error e, c, t)

/-- `HyperTokenClient.reset`. -/
def clientReset (h : Handler S) (c : Client S) (seed : Option Int) :
    CRes S Unit :=
  match sendCmd h c (.reset seed) with
  | (.ok _, c', t) => (.ok (), c', t)
  | (.error e, c', t) => (.error e, c', t)

/-- `HyperTokenClient.step` (the `int(action)` coercion is the identity
on our integer actions). -/
def clientStep (h : Handler S) (c : Client S) (action : Int) : CRes S Unit :=
  match sendCmd h c (.step action) with
  | (.ok _, c', t) => (.ok (), c', t)
  | (.error e, c', t) => (.error e, c', t)

/-- `HyperTokenClient.observe`. -/
def clientObserve (h : Handler S) (c : Client S) (agent : Agent) :
    CRes S (List ℚ) :=
  extractField (sendCmd h c (.observe agent)) "observation" Reply.observation

/-- `HyperTokenClient.last` — returns the raw reply dictionary. -/
def clientLast (h : Handler S) (c : Client S) : CRes S Reply :=
  sendCmd h c .last

/-- `HyperTokenClient.agents`. -/
def clientAgents (h : Handler S) (c : Client S) : CRes S (List Agent) :=
  extractField (sendCmd h c .agents) "agents" Reply.agents

/-- `HyperTokenClient.possible_agents`. -/
def clientPossibleAgents (h : Handler S) (c : Client S) :
    CRes S (List Agent) :=
  extractField (sendCmd h c .possible_agents) "possible_agents"
    Reply.possible_agents

/-- `HyperTokenClient.agent_selection`. -/
def clientAgentSelection (h : Handler S) (c : Client S) : CRes S Agent :=
  extractField (sendCmd h c .agent_selection) "agent" Reply.agent

/-- `HyperTokenClient.observation_space`. -/
def clientObservationSpace (h : Handler S) (c : Client S) (agent : Agent) :
    CRes S SpaceDict :=
  extractField (sendCmd h c (.observation_space agent)) "space" Reply.space

/-- `HyperTokenClient.action_space`. -/
def clientActionSpace (h : Handler S) (c : Client S) (agent : Agent) :
    CRes S SpaceDict :=
  extractField (sendCmd h c (.action_space agent)) "space" Reply.space

/-- `HyperTokenClient.rewards`. -/
def clientRewards (h : Handler S) (c : Client S) :
    CRes S (List (Agent × ℚ)) :=
  extractField (sendCmd h c .rewards) "rewards" Reply.rewards

/-- `HyperTokenClient.terminations`. -/
def clientTerminations (h : Handler S) (c : Client S) :
    CRes S (List (Agent × Bool)) :=
  extractField (sendCmd h c .terminations) "terminations" Reply.terminations

/-- `HyperTokenClient.truncations`. -/
def clientTruncations (h : Handler S) (c : Client S) :
    CRes S (List (Agent × Bool)) :=
  extractField (sendCmd h c .truncations) "truncations" Reply.truncations

/-- `HyperTokenClient.infos`. -/
def clientInfos (h : Handler S) (c : Client S) :
    CRes S (List (Agent × Info)) :=
  extractField (sendCmd h c .infos) "infos" Reply.infos

/-- `HyperTokenClient.action_mask`: `mask = response.get("mask")`, then
`np.array(mask, dtype=bool) if mask else None` — both an absent key and a
present-but-empty list are falsy in Python and yield `None`. -/
def clientActionMask (h : Handler S) (c : Client S) (agent : Agent) :
    CRes S (Option (List Bool)) :=
  match sendCmd h c (.action_mask agent) with
  | (.ok reply, c', t) =>
    match reply.mask with
    | some m => if m = [] then (.ok none, c', t) else (.ok (some m), c', t)
    | none => (.ok none, c', t)
  | (.error e, c', t) => (.error e, c', t)

/-- `HyperTokenClient.render`. -/
def clientRender (h : Handler S) (c : Client S) : CRes S Unit :=
  match sendCmd h c .render with
  | (.ok _, c', t) => (.ok (), c', t)
  | (.error e, c', t) => (.error e, c', t)

/-- `HyperTokenClient.close`: `try: self._send({"cmd": "close"}) except
Exception: pass`, then `disconnect()` — any exception from `_send` is
swallowed, and the socket handle is cleared unconditionally. -/
def clientClose (h : Handler S) (c : Client S) : CRes S Unit :=
  match sendCmd h c .close with
  | (_, c', t) => (.ok (), ⟨false, c'.server⟩, t)

/-- `HyperTokenClient.ping` (the measured latency is irrelevant to the
protocol state; we keep only success/failure). -/
def clientPing (h : Handler S) (c : Client S) : CRes S Unit :=
  match sendCmd h c .ping with
  | (.ok _, c', t) => (.ok (), c', t)
  | (.error e, c', t) => (.error e, c', t)

/-- `HyperTokenClient.env_info` — returns the raw reply dictionary. -/
def clientEnvInfo (h : Handler S) (c : Client S) : CRes S Reply :=
  sendCmd h c .env_info

/-- One name per public command method of `HyperTokenClient`, to quantify
over "every client method". -/
inductive Method where
  | reset | step | observe | last | agents | possible_agents
  | agent_selection | observation_space | action_space | rewards
  | terminations | truncations | infos | action_mask | render | close
  | ping | env_info
deriving DecidableEq, Repr

/-- The single wire command a given client method sends (with its
arguments). -/
def methodCmd (m : Method) (seed : Option Int) (action : Int)
    (agent : Agent) : Cmd :=
  match m with
  | .reset => .reset seed
  | .step => .step action
  | .observe => .observe agent
  | .last => .last
  | .agents => .agents
  | .possible_agents => .possible_agents
  | .agent_selection => .agent_selection
  | .observation_space => .observation_space agent
  | .action_space => .action_space agent
  | .rewards => .rewards
  | .terminations => .terminations
  | .truncations => .truncations
  | .infos => .infos
  | .action_mask => .action_mask agent
  | .render => .render
  | .close => .close
  | .ping => .ping
  | .env_info => .env_info

/-- Forget a call's return value, keeping exception/state/trace. -/
def dropVal (r : CRes S α) : CRes S Unit :=
  match r with
  | (.ok _, c, t) => (.ok (), c, t)
  | (.error e, c, t) => (.error e, c, t)

/-- Uniform dispatcher over the client's command methods. -/
def runMethod (h : Handler S) (c : Client S) (m : Method)
    (seed : Option Int) (action : Int) (agent : Agent) : CRes S Unit :=
  match m with
  | .reset => dropVal (clientReset h c seed)
  | .step => dropVal (clientStep h c action)
  | .observe => dropVal (clientObserve h c agent)
  | .last => dropVal (clientLast h c)
  | .agents => dropVal (clientAgents h c)
  | .possible_agents => dropVal (clientPossibleAgents h c)
  | .agent_selection => dropVal (clientAgentSelection h c)
  | .observation_space => dropVal (clientObservationSpace h c agent)
  | .action_space => dropVal (clientActionSpace h c agent)
  | .rewards => dropVal (clientRewards h c)
  | .terminations => dropVal (clientTerminations h c)
  | .truncations => dropVal (clientTruncations h c)
  | .infos => dropVal (clientInfos h c)
  | .action_mask => dropVal (clientActionMask h c agent)
  | .render => dropVal (clientRender h c)
  | .close => dropVal (clientClose h c)
  | .ping => dropVal (clientPing h c)
  | .env_info => dropVal (clientEnvInfo h c)

/-! ## `env.py` — `HyperTokenAECEnv` -/

/-- `HyperTokenAECEnv` state.  `renderHuman` models
`render_mode == "human"`; `connected` is `self._connected`; the three
caches are `self._possible_agents`, `self._observation_spaces`,
`self._action_spaces` (association lists keyed by agent). -/
structure AECEnv (S : Type) where
  client : Client S
  renderHuman : Bool
  connected : Bool
  possibleAgentsCache : List Agent
  obsSpaces : List (Agent × Space)
  actSpaces : List (Agent × Space)
deriving DecidableEq, Repr

/-- Result of one AEC-adapter call. -/
abbrev ERes (S : Type) (α : Type) := Except Err α × AECEnv S × List Cmd

/-- Replace the embedded client after a client call. -/
def AECEnv.withClient (env : AECEnv S) (c : Client S) : AECEnv S :=
  { env with client := c }

/-- Space-cache fetch loop inside `_connect_and_init`: for each possible
agent, fetch and convert both space descriptors, extending the two cache
dictionaries; a `ValueError` from `convert_space` or any client error
aborts with the caches extended up to that point (as in Python). -/
def fetchSpaces (h : Handler S) : AECEnv S → List Agent → ERes S Unit
  | env, [] => (.ok (), env, [])
  | env, ag :: rest =>
    match clientObservationSpace h env.client ag with
    | (.error e, c1, t1) => (.error e, env.withClient c1, t1)
    | (.ok obsDef, c1, t1) =>
      match clientActionSpace h c1 ag with
      | (.error e, c2, t2) => (.error e, env.withClient c2, t1 ++ t2)
      | (.ok actDef, c2, t2) =>
        match convert_space obsDef with
        | .error msg => (.error (.value msg), env.withClient c2, t1 ++ t2)
        | .ok obsSp =>
          match convert_space actDef with
          | .error msg =>
            (.error (.value msg),
             { env with
                client := c2
                obsSpaces := env.obsSpaces ++ [(ag, obsSp)] }, t1 ++ t2)
          | .ok actSp =>
            let env' : AECEnv S :=
              { env with
                  client := c2
                  obsSpaces := env.obsSpaces ++ [(ag, obsSp)]
                  actSpaces := env.actSpaces ++ [(ag, actSp)] }
            match fetchSpaces h env' rest with
            | (res, envF, t3) => (res, envF, t1 ++ t2 ++ t3)

/-- `HyperTokenAECEnv._connect_and_init`: no-op when already connected;
otherwise open the socket, set `_connected = True`, fetch the
possible-agent list, and populate the space caches. -/
def connectAndInit (h : Handler S) (env : AECEnv S) : ERes S Unit :=
  if env.connected then (.ok (), env, [])
  else
    let c0 : Client S := ⟨true, env.client.server⟩
    let env0 : AECEnv S := { env with client := c0, connected := true }
    match clientPossibleAgents h c0 with
    | (.error e, c1, t1) => (.error e, env0.withClient c1, t1)
    | (.ok pas, c1, t1) =>
      let env1 : AECEnv S :=
        { env0 with client := c1, possibleAgentsCache := pas }
      match fetchSpaces h env1 pas with
      | (res, envF, t2) => (res, envF, t1 ++ t2)

/-- `HyperTokenAECEnv.possible_agents` property: a copy of the cache,
no wire traffic. -/
def aecPossibleAgents (env : AECEnv S) : List Agent :=
  env.possibleAgentsCache

/-- `HyperTokenAECEnv.agents` property: `[]` without a connection, else a
live `agents` query. -/
def aecAgents (h : Handler S) (env : AECEnv S) : ERes S (List Agent) :=
  if env.connected then
    match clientAgents h env.client with
    | (res, c', t) => (res, env.withClient c', t)
  else (.ok [], env, [])

/-- `HyperTokenAECEnv.agent_selection` property: `""` without a
connection, else a live `agent_selection` query. -/
def aecAgentSelection (h : Handler S) (env : AECEnv S) : ERes S Agent :=
  if env.connected then
    match clientAgentSelection h env.client with
    | (res, c', t) => (res, env.withClient c', t)
  else (.ok "", env, [])

/-- `HyperTokenAECEnv.observation_space`: pure cache lookup
(`KeyError` when absent). -/
def aecObservationSpaceOf (env : AECEnv S) (agent : Agent) :
    Except Err Space :=
  match (env.obsSpaces.lookup agent) with
  | some sp => .ok sp
  | none => .error (.protocol "KeyError")

/-- `HyperTokenAECEnv.action_space`: pure cache lookup. -/
def aecActionSpaceOf (env : AECEnv S) (agent : Agent) : Except Err Space :=
  match (env.actSpaces.lookup agent) with
  | some sp => .ok sp
  | none => .error (.protocol "KeyError")

/-- `HyperTokenAECEnv.render`. -/
def aecRender (h : Handler S) (env : AECEnv S) : ERes S Unit :=
  match clientRender h env.client with
  | (res, c', t) => (res, env.withClient c', t)

/-- `HyperTokenAECEnv.reset`: reconnect-and-init when not connected,
forward the seed, then render in human mode. -/
def aecReset (h : Handler S) (env : AECEnv S) (seed : Option Int) :
    ERes S Unit :=
  match connectAndInit h env with
  | (.error e, env1, t1) => (.error e, env1, t1)
  | (.ok _, env1, t1) =>
    match clientReset h env1.client seed with
    | (.error e, c2, t2) => (.error e, env1.withClient c2, t1 ++ t2)
    | (.ok _, c2, t2) =>
      let env2 := env1.withClient c2
      if env2.renderHuman then
        match aecRender h env2 with
        | (res, env3, t3) => (res, env3, t1 ++ t2 ++ t3)
      else (.ok (), env2, t1 ++ t2)

/-- `HyperTokenAECEnv.step`: forward a non-`None` action to the client,
do nothing for `None`, then render in human mode. -/
def aecStep (h : Handler S) (env : AECEnv S) (action : Option Int) :
    ERes S Unit :=
  match action with
  | some a =>
    match clientStep h env.client a with
    | (.error e, c', t) => (.error e, env.withClient c', t)
    | (.ok _, c', t) =>
      let env' := env.withClient c'
      if env'.renderHuman then
        match aecRender h env' with
        | (res, env'', t') => (res, env'', t ++ t')
      else (.ok (), env', t)
  | none =>
    if env.renderHuman then aecRender h env
    else (.ok (), env, [])

/-- `HyperTokenAECEnv.observe`. -/
def aecObserve (h : Handler S) (env : AECEnv S) (agent : Agent) :
    ERes S (List ℚ) :=
  match clientObserve h env.client agent with
  | (res, c', t) => (res, env.withClient c', t)

/-- The tuple `last()` returns: observation (absent when suppressed),
reward, terminated, truncated, info. -/
abbrev LastResult := Option (List ℚ) × ℚ × Bool × Bool × Info

/-- `HyperTokenAECEnv.last`: raw `last` reply, then the live
`agent_selection` property, then (unless suppressed) an `observe` for that
agent; missing reply fields fall back to `0.0`, `False`, `False`, `{}`
via `result.get(...)`. -/
def aecLast (h : Handler S) (env : AECEnv S) (obsFlag : Bool) :
    ERes S LastResult :=
  match clientLast h env.client with
  | (.error e, c1, t1) => (.error e, env.withClient c1, t1)
  | (.ok result, c1, t1) =>
    match aecAgentSelection h (env.withClient c1) with
    | (.error e, env2, t2) => (.error e, env2, t1 ++ t2)
    | (.ok agent, env2, t2) =>
      let reward := (result.reward).getD 0
      let terminated := (result.terminated).getD false
      let truncated := (result.truncated).getD false
      let info := (result.info).getD []
      if obsFlag then
        match aecObserve h env2 agent with
        | (.error e, env3, t3) => (.error e, env3, t1 ++ t2 ++ t3)
        | (.ok obs, env3, t3) =>
          (.ok (some obs, reward, terminated, truncated, info), env3,
           t1 ++ t2 ++ t3)
      else
        (.ok (none, reward, terminated, truncated, info), env2, t1 ++ t2)

/-- `HyperTokenAECEnv.rewards`. -/
def aecRewards (h : Handler S) (env : AECEnv S) :
    ERes S (List (Agent × ℚ)) :=
  match clientRewards h env.client with
  | (res, c', t) => (res, env.withClient c', t)

/-- `HyperTokenAECEnv.terminations`. -/
def aecTerminations (h : Handler S) (env : AECEnv S) :
    ERes S (List (Agent × Bool)) :=
  match clientTerminations h env.client with
  | (res, c', t) => (res, env.withClient c', t)

/-- `HyperTokenAECEnv.truncations`. -/
def aecTruncations (h : Handler S) (env : AECEnv S) :
    ERes S (List (Agent × Bool)) :=
  match clientTruncations h env.client with
  | (res, c', t) => (res, env.withClient c', t)

/-- `HyperTokenAECEnv.infos`. -/
def aecInfos (h : Handler S) (env : AECEnv S) :
    ERes S (List (Agent × Info)) :=
  match clientInfos h env.client with
  | (res, c', t) => (res, env.withClient c', t)

/-- `HyperTokenAECEnv.action_mask`. -/
def aecActionMask (h : Handler S) (env : AECEnv S) (agent : Agent) :
    ERes S (Option (List Bool)) :=
  match clientActionMask h env.client agent with
  | (res, c', t) => (res, env.withClient c', t)

/-- `HyperTokenAECEnv.close`: forward to the client (which never raises)
and clear `_connected` only when it was set. -/
def aecClose (h : Handler S) (env : AECEnv S) : ERes S Unit :=
  if env.connected then
    match clientClose h env.client with
    | (_, c', t) => (.ok (), { env with client := c', connected := false }, t)
  else (.ok (), env, [])

/-- `HyperTokenAECEnv.agent_iter`, run against a caller.  The generator
re-evaluates `self.agents` before each yield, exits when that list is
empty or `count` (modelled by the remaining budget `n = max_iter - count`)
runs out, and otherwise yields the live `agent_selection`; between yields
the caller interacts with the server through the same connection, which we
abstract as a transformation `act` of the server state given the yielded
agent.  An exception raised by either live query propagates out of the
generator.  At `n = 0` the loop condition still queries `self.agents` once
(the `and` then fails on `count < max_iter`). -/
def agentIterRun (h : Handler S) (act : Agent → S → S) :
    AECEnv S → Nat → Except Err (List Agent) × AECEnv S
  | env, 0 =>
    match aecAgents h env with
    | (.error e, env', _) => (.error e, env')
    | (.ok _, env', _) => (.ok [], env')
  | env, n + 1 =>
    match aecAgents h env with
    | (.error e, env', _) => (.error e, env')
    | (.ok [], env', _) => (.ok [], env')
    | (.ok (_ :: _), env', _) =>
      match aecAgentSelection h env' with
      | (.error e, env'', _) => (.error e, env'')
      | (.ok a, env'', _) =>
        let envActed : AECEnv S :=
          { env'' with
              client := ⟨env''.client.connected, act a env''.client.server⟩ }
        match agentIterRun h act envActed n with
        | (.ok as, envF) => (.ok (a :: as), envF)
        | (.error e, envF) => (.error e, envF)

/-- Forget an AEC call's return value, keeping exception/state/trace. -/
def dropValE (r : ERes S α) : ERes S Unit :=
  match r with
  | (.ok _, env, t) => (.ok (), env, t)
  | (.error e, env, t) => (.error e, env, t)

/-- One name per `HyperTokenAECEnv` operation other than `reset` (which
is the one operation allowed to open a fresh connection) — used to
quantify over "every adapter operation". -/
inductive AECOp where
  | possibleAgentsQ : AECOp
  | agentsQ : AECOp
  | numAgentsQ : AECOp
  | agentSelectionQ : AECOp
  | observationSpaceQ : AECOp
  | actionSpaceQ : AECOp
  | stepOp : Option Int → AECOp
  | observeOp : AECOp
  | lastOp : Bool → AECOp
  | rewardsQ : AECOp
  | terminationsQ : AECOp
  | truncationsQ : AECOp
  | infosQ : AECOp
  | actionMaskQ : AECOp
  | renderOp : AECOp
  | closeOp : AECOp
deriving DecidableEq, Repr

/-- Uniform dispatcher over the AEC adapter's operations.  The pure
properties/lookups (`possible_agents`, `observation_space`,
`action_space`) touch no wire and are reported with an empty trace. -/
def runAECOp (h : Handler S) (env : AECEnv S) (op : AECOp) (ag : Agent) :
    ERes S Unit :=
  match op with
  | .possibleAgentsQ => (.ok (), env, [])
  | .agentsQ => dropValE (aecAgents h env)
  | .numAgentsQ => dropValE (aecAgents h env)
  | .agentSelectionQ => dropValE (aecAgentSelection h env)
  | .observationSpaceQ => ((aecObservationSpaceOf env ag).map fun _ => (), env, [])
  | .actionSpaceQ => ((aecActionSpaceOf env ag).map fun _ => (), env, [])
  | .stepOp a => aecStep h env a
  | .observeOp => dropValE (aecObserve h env ag)
  | .lastOp b => dropValE (aecLast h env b)
  | .rewardsQ => dropValE (aecRewards h env)
  | .terminationsQ => dropValE (aecTerminations h env)
  | .truncationsQ => dropValE (aecTruncations h env)
  | .infosQ => dropValE (aecInfos h env)
  | .actionMaskQ => dropValE (aecActionMask h env ag)
  | .renderOp => dropValE (aecRender h env)
  | .closeOp => aecClose h env

/-! ## `env.py` — `HyperTokenParallelEnv` -/

/-- The per-agent action loop inside `HyperTokenParallelEnv.step`: iterate
over the round-start snapshot of `self.agents`; for each agent with an
entry in `actions`, read the live `agent_selection` and issue one
underlying AEC step only when it matches that agent. -/
def parallelStepLoop (h : Handler S) (actions : List (Agent × Int)) :
    AECEnv S → List Agent → ERes S Unit
  | env, [] => (.ok (), env, [])
  | env, ag :: rest =>
    match actions.lookup ag with
    | none => parallelStepLoop h actions env rest
    | some act =>
      match aecAgentSelection h env with
      | (.error e, env', t) => (.error e, env', t)
      | (.ok cur, env', t) =>
        if cur = ag then
          match aecStep h env' (some act) with
          | (.error e, env'', t') => (.error e, env'', t ++ t')
          | (.ok _, env'', t') =>
            match parallelStepLoop h actions env'' rest with
            | (res, envF, t'') => (res, envF, t ++ t' ++ t'')
        else
          match parallelStepLoop h actions env' rest with
          | (res, envF, t'') => (res, envF, t ++ t'')

/-- The observation-gathering comprehension of `HyperTokenParallelEnv`:
one `observe` per listed agent, in order. -/
def observeAll (h : Handler S) :
    AECEnv S → List Agent → ERes S (List (Agent × List ℚ))
  | env, [] => (.ok [], env, [])
  | env, ag :: rest =>
    match aecObserve h env ag with
    | (.error e, env', t) => (.error e, env', t)
    | (.ok o, env', t) =>
      match observeAll h env' rest with
      | (.ok os, envF, t') => (.ok ((ag, o) :: os), envF, t ++ t')
      | (.error e, envF, t') => (.error e, envF, t ++ t')

/-- The five per-agent maps returned by `HyperTokenParallelEnv.step`. -/
abbrev ParallelResult :=
  List (Agent × List ℚ) × List (Agent × ℚ) × List (Agent × Bool) ×
  List (Agent × Bool) × List (Agent × Info)

/-- `HyperTokenParallelEnv.step`: snapshot `list(self.agents)`, run the
action loop, then re-read `self.agents` and gather observations, rewards,
terminations, truncations and infos through the wrapped AEC adapter. -/
def parallelStep (h : Handler S) (env : AECEnv S)
    (actions : List (Agent × Int)) : ERes S ParallelResult :=
  match aecAgents h env with
  | (.error e, env1, t1) => (.error e, env1, t1)
  | (.ok roundStart, env1, t1) =>
    match parallelStepLoop h actions env1 roundStart with
    | (.error e, env2, t2) => (.error e, env2, t1 ++ t2)
    | (.ok _, env2, t2) =>
      match aecAgents h env2 with
      | (.error e, env3, t3) => (.error e, env3, t1 ++ t2 ++ t3)
      | (.ok currentAgents, env3, t3) =>
        match observeAll h env3 currentAgents with
        | (.error e, env4, t4) => (.error e, env4, t1 ++ t2 ++ t3 ++ t4)
        | (.ok obs, env4, t4) =>
          match aecRewards h env4 with
          | (.error e, env5, t5) =>
            (.error e, env5, t1 ++ t2 ++ t3 ++ t4 ++ t5)
          | (.ok rew, env5, t5) =>
            match aecTerminations h env5 with
            | (.error e, env6, t6) =>
              (.error e, env6, t1 ++ t2 ++ t3 ++ t4 ++ t5 ++ t6)
            | (.ok term, env6, t6) =>
              match aecTruncations h env6 with
              | (.error e, env7, t7) =>
                (.error e, env7, t1 ++ t2 ++ t3 ++ t4 ++ t5 ++ t6 ++ t7)
              | (.ok trunc, env7, t7) =>
                match aecInfos h env7 with
                | (.error e, env8, t8) =>
                  (.error e, env8,
                   t1 ++ t2 ++ t3 ++ t4 ++ t5 ++ t6 ++ t7 ++ t8)
                | (.ok inf, env8, t8) =>
                  (.ok (obs, rew, term, trunc, inf), env8,
                   t1 ++ t2 ++ t3 ++ t4 ++ t5 ++ t6 ++ t7 ++ t8)

/-- Is a wire command an underlying sequential `step`? -/
def isStepCmd : Cmd → Bool
  | .step _ => true
  | _ => false

/-- Number of underlying sequential steps in a transport trace. -/
def countSteps (t : List Cmd) : Nat := (t.filter isStepCmd).length

/-! ## Concrete servers used to instantiate the theorems -/

/-- A stateless server answering every command with a fixed reply. -/
def constHandler (f : Cmd → Reply) : Handler Unit := fun s c => (f c, s)

/-- A connected adapter over the trivial server state, with empty caches
and non-human render mode. -/
def connEnv : AECEnv Unit := ⟨⟨true, ()⟩, false, true, [], [], []⟩

/-- A closed adapter over the trivial server state. -/
def closedEnv : AECEnv Unit := ⟨⟨false, ()⟩, false, false, [], [], []⟩

/-- Server for the parallel-round scenario: active agents `["a", "b"]`,
with agent `"b"` (and never `"a"`) reported as the one whose turn it is. -/
def srvTurnB : Handler Unit := constHandler fun cmd =>
  match cmd with
  | .agents => { Reply.empty with agents := some ["a", "b"] }
  | .agent_selection => { Reply.empty with agent := some "b" }
  | .observe _ => { Reply.empty with observation := some [] }
  | .rewards => { Reply.empty with rewards := some [("b", 1)] }
  | .terminations => { Reply.empty with terminations := some [("b", false)] }
  | .truncations => { Reply.empty with truncations := some [("b", false)] }
  | .infos => { Reply.empty with infos := some [("b", [])] }
  | _ => Reply.empty

/-- Server for the iteration scenario: active agents `["p0", "p1"]`,
`"p0"` always selected, and `last` reporting `"p0"` as terminated. -/
def srvTermSel : Handler Unit := constHandler fun cmd =>
  match cmd with
  | .agents => { Reply.empty with agents := some ["p0", "p1"] }
  | .agent_selection => { Reply.empty with agent := some "p0" }
  | .last => { Reply.empty with terminated := some true }
  | .observe _ => { Reply.empty with observation := some [] }
  | _ => Reply.empty

/-- Server replying `{"error": "boom"}` to every command. -/
def srvBoom : Handler Unit := constHandler fun _ =>
  { Reply.empty with error := some "boom" }

/-- Server replying an empty action mask (`"mask": []`) and otherwise
well-formed data. -/
def srvEmptyMask : Handler Unit := constHandler fun cmd =>
  match cmd with
  | .action_mask _ => { Reply.empty with mask := some [] }
  | _ => Reply.empty

/-- Server replying a nonempty action mask `[true, false, true]`. -/
def srvFullMask : Handler Unit := constHandler fun cmd =>
  match cmd with
  | .action_mask _ => { Reply.empty with mask := some [true, false, true] }
  | _ => Reply.empty

/-- Server whose `last` reply omits reward/terminated/truncated/info,
with a working selection and observation. -/
def srvBareLast : Handler Unit := constHandler fun cmd =>
  match cmd with
  | .agent_selection => { Reply.empty with agent := some "p0" }
  | .observe _ => { Reply.empty with observation := some [3] }
  | _ => Reply.empty

/-- A fully well-formed stateless server used for witnesses. -/
def srvNice : Handler Unit := constHandler fun cmd =>
  match cmd with
  | .agents => { Reply.empty with agents := some ["p0"] }
  | .possible_agents => { Reply.empty with possible_agents := some ["p0"] }
  | .agent_selection => { Reply.empty with agent := some "p0" }
  | .observe _ => { Reply.empty with observation := some [2] }
  | .last =>
    { Reply.empty with
        reward := some 1, terminated := some false, truncated := some false,
        info := some [] }
  | .rewards => { Reply.empty with rewards := some [("p0", 1)] }
  | .terminations => { Reply.empty with terminations := some [("p0", false)] }
  | .truncations => { Reply.empty with truncations := some [("p0", false)] }
  | .infos => { Reply.empty with infos := some [("p0", [])] }
  | .action_mask _ => { Reply.empty with mask := some [true, true] }
  | .observation_space _ =>
    { Reply.empty with
        space := some ⟨none, some [1], some [.finite 0], some [.finite 1]⟩ }
  | .action_space _ => { Reply.empty with space := some ⟨some 2, none, none, none⟩ }
  | _ => Reply.empty

/-! ## Helper lemmas -/

/-- Adapter-local state other than the embedded client: the three caches
and the `_connected` flag. -/
def sameCaches (env env' : AECEnv S) : Prop :=
  env'.possibleAgentsCache = env.possibleAgentsCache ∧
  env'.obsSpaces = env.obsSpaces ∧
  env'.actSpaces = env.actSpaces ∧
  env'.connected = env.connected

theorem sameCaches_refl (env : AECEnv S) : sameCaches env env :=
  ⟨rfl, rfl, rfl, rfl⟩

theorem sameCaches_withClient (env : AECEnv S) (c : Client S) :
    sameCaches env (env.withClient c) :=
  ⟨rfl, rfl, rfl, rfl⟩

theorem sameCaches_trans (h1 : sameCaches e1 e2) (h2 : sameCaches e2 e3) :
    sameCaches e1 e3 :=
  ⟨h2.1.trans h1.1, h2.2.1.trans h1.2.1, h2.2.2.1.trans h1.2.2.1,
   h2.2.2.2.trans h1.2.2.2⟩

/-- `_send` either refuses (disconnected, empty trace) or sends exactly
its one command. -/
theorem sendCmd_trace (h : Handler S) (c : Client S) (cmd : Cmd) :
    (sendCmd h c cmd).2.2 = [] ∨ (sendCmd h c cmd).2.2 = [cmd] := by
  unfold sendCmd
  by_cases hc : c.connected = true
  · simp only [hc, if_true]
    cases (h c.server cmd).1.error <;> simp
  · simp [hc]

/-- A disconnected `_send` fails with the not-connected error, changes
nothing, and sends nothing. -/
theorem sendCmd_disconnected (h : Handler S) (c : Client S) (cmd : Cmd)
    (hc : c.connected = false) :
    sendCmd h c cmd = (.error .notConnected, c, []) := by
  simp [sendCmd, hc]

/-- A connected `_send` whose reply carries an error field raises the
uniform server error. -/
theorem sendCmd_server_error (h : Handler S) (c : Client S) (cmd : Cmd)
    (msg : String) (hc : c.connected = true)
    (he : (h c.server cmd).1.error = some msg) :
    sendCmd h c cmd =
      (.error (.serverError ("Server error: " ++ msg)),
       ⟨true, (h c.server cmd).2⟩, [cmd]) := by
  simp [sendCmd, hc, he]

theorem extractField_snd (r : CRes S Reply) (name : String)
    (f : Reply → Option α) : (extractField r name f).2 = r.2 := by
  rcases r with ⟨res, c, t⟩
  cases res with
  | ok reply => cases hf : f reply <;> simp [extractField, hf]
  | error e => simp [extractField]

theorem clientReset_snd (h : Handler S) (c : Client S) (seed : Option Int) :
    (clientReset h c seed).2 = (sendCmd h c (.reset seed)).2 := by
  unfold clientReset; split <;> simp_all

theorem clientStep_snd (h : Handler S) (c : Client S) (a : Int) :
    (clientStep h c a).2 = (sendCmd h c (.step a)).2 := by
  unfold clientStep; split <;> simp_all

theorem clientRender_snd (h : Handler S) (c : Client S) :
    (clientRender h c).2 = (sendCmd h c .render).2 := by
  unfold clientRender; split <;> simp_all

theorem clientActionMask_snd (h : Handler S) (c : Client S) (ag : Agent) :
    (clientActionMask h c ag).2 = (sendCmd h c (.action_mask ag)).2 := by
  unfold clientActionMask
  split
  · split
    · split <;> simp_all
    · simp_all
  · simp_all

theorem clientClose_aux (h : Handler S) (c : Client S) :
    (clientClose h c).1 = .ok () ∧
    (clientClose h c).2.1 = ⟨false, (sendCmd h c .close).2.1.server⟩ ∧
    (clientClose h c).2.2 = (sendCmd h c .close).2.2 := by
  unfold clientClose
  split
  next r c' t heq => simp [heq]

/-! ## Claim C4 — space descriptor round trip -/

/-- Claim C4 as stated fails: the bounded-vector descriptor `{shape: [1]}`
with `low`/`high` absent is a descriptor the server can produce, yet its
round trip yields a descriptor with explicit `[-inf]`/`[inf]` bounds —
not field-for-field equal to the original (the optional fields appear). -/
theorem claim_C4_counterexample :
    roundTrip ⟨none, some [1], none, none⟩ =
      .ok ⟨none, some [1], some [.negInf], some [.posInf]⟩ ∧
    roundTrip ⟨none, some [1], none, none⟩ ≠
      .ok ⟨none, some [1], none, none⟩ := by
  refine ⟨rfl, fun hcontra => ?_⟩
  have : (⟨none, some [1], some [.negInf], some [.posInf]⟩ : SpaceDict) =
      ⟨none, some [1], none, none⟩ := by
    have h1 : roundTrip ⟨none, some [1], none, none⟩ =
        .ok ⟨none, some [1], some [.negInf], some [.posInf]⟩ := rfl
    exact Except.ok.inj (h1.symm.trans hcontra)
  simp at this

/-- Claim C4 (amended): the round trip is the identity on discrete
descriptors, and on bounded-vector descriptors whose `low` and `high` are
both present (with element counts matching the shape); a descriptor with
absent bounds instead comes back with explicit `±∞` bounds. -/
theorem claim_C4_roundtrip :
    (∀ n : Nat, 1 ≤ n →
      roundTrip ⟨some n, none, none, none⟩ = .ok ⟨some n, none, none, none⟩) ∧
    (∀ (shape : List Nat) (low high : List FVal),
      low.length = shapeSize shape → high.length = shapeSize shape →
      roundTrip ⟨none, some shape, some low, some high⟩ =
        .ok ⟨none, some shape, some low, some high⟩) := by
  constructor
  · intro n _
    rfl
  · intro shape low high h1 h2
    simp [roundTrip, convert_space, space_to_dict, h1, h2, Except.map]

/-- Witness for C4: the round trip at `{n: 2}` and at
`{shape: [2], low: [0, 0], high: [1, 1]}`. -/
theorem claim_C4_roundtrip_witness :
    roundTrip ⟨some 2, none, none, none⟩ = .ok ⟨some 2, none, none, none⟩ ∧
    roundTrip ⟨none, some [2], some [.finite 0, .finite 0],
        some [.finite 1, .finite 1]⟩ =
      .ok ⟨none, some [2], some [.finite 0, .finite 0],
        some [.finite 1, .finite 1]⟩ :=
  ⟨claim_C4_roundtrip.1 2 (by decide),
   claim_C4_roundtrip.2 [2] [.finite 0, .finite 0] [.finite 1, .finite 1]
     (by decide) (by decide)⟩

/-! ## Claim C6 — `step(None)` is a silent no-op -/

/-- Claim C6: an AEC `step` with `action = None` and a non-"human" render
mode sends no wire command at all, raises nothing, and leaves the whole
adapter state (hence also the server-side state it embeds) unchanged. -/
theorem claim_C6_step_none_silent :
    ∀ (S : Type) (h : Handler S) (env : AECEnv S),
    env.renderHuman = false →
    aecStep h env none = (.ok (), env, []) := by
  intro S h env hr
  simp [aecStep, hr]

/-- Witness for C6 on a concrete connected adapter. -/
theorem claim_C6_step_none_silent_witness :
    aecStep srvNice connEnv none = (.ok (), connEnv, []) :=
  claim_C6_step_none_silent Unit srvNice connEnv rfl

/-! ## Claim C7 — calls while disconnected -/

/-- Claim C7 as stated fails: `close()` is a client method, yet invoked
while disconnected it returns normally (the not-connected failure of
`_send` is swallowed by its `try/except`), instead of failing. -/
theorem claim_C7_counterexample :
    (⟨false, ()⟩ : Client Unit).connected = false ∧
    runMethod srvNice ⟨false, ()⟩ .close none 0 "p0" =
      (.ok (), ⟨false, ()⟩, []) :=
  ⟨rfl, rfl⟩

/-- Claim C7 (amended): every client method invoked while disconnected
sends nothing on the wire; every method except `close` fails immediately
with the not-connected error (leaving the client state untouched), while
`close` swallows that failure and returns normally. -/
theorem claim_C7_disconnected :
    ∀ (S : Type) (h : Handler S) (c : Client S) (m : Method)
      (seed : Option Int) (action : Int) (agent : Agent),
    c.connected = false →
    (runMethod h c m seed action agent).2.2 = [] ∧
    (m ≠ .close →
      runMethod h c m seed action agent = (.error .notConnected, c, [])) ∧
    (m = .close →
      runMethod h c m seed action agent = (.ok (), c, [])) := by
  intro S h c m seed action agent hc
  have hsend : ∀ cmd, sendCmd h c cmd = (.error .notConnected, c, []) :=
    fun cmd => sendCmd_disconnected h c cmd hc
  have heta : (⟨false, c.server⟩ : Client S) = c := by
    rw [← hc]
  cases m <;>
    simp [runMethod, dropVal, clientReset, clientStep, clientObserve,
      clientLast, clientAgents, clientPossibleAgents, clientAgentSelection,
      clientObservationSpace, clientActionSpace, clientRewards,
      clientTerminations, clientTruncations, clientInfos, clientActionMask,
      clientRender, clientClose, clientPing, clientEnvInfo, extractField,
      hsend, heta]

/-- Witness for C7: a disconnected `agents` call fails with the
not-connected error, and a disconnected `close` returns normally; neither
sends anything. -/
theorem claim_C7_disconnected_witness :
    runMethod srvNice ⟨false, ()⟩ .agents none 0 "p0" =
      (.error .notConnected, ⟨false, ()⟩, []) ∧
    runMethod srvNice ⟨false, ()⟩ .close none 0 "p0" =
      (.ok (), ⟨false, ()⟩, []) :=
  ⟨(claim_C7_disconnected Unit srvNice ⟨false, ()⟩ .agents none 0 "p0"
      rfl).2.1 (by decide),
   (claim_C7_disconnected Unit srvNice ⟨false, ()⟩ .close none 0 "p0"
      rfl).2.2 rfl⟩

/-! ## Claim C9 — action-mask decoding -/

/-- Claim C9 as stated fails: a reply that does carry a mask field, but an
empty one (`"mask": []`), is falsy in Python, so the client returns `None`
even though the field is present. -/
theorem claim_C9_counterexample :
    (srvEmptyMask () (Cmd.action_mask "p0")).1.mask = some [] ∧
    (clientActionMask srvEmptyMask ⟨true, ()⟩ "p0").1 = .ok none :=
  ⟨rfl, rfl⟩

/-- Claim C9 (amended): on a successful reply the client returns `None`
exactly when the mask field is absent or the carried mask is the empty
list; whenever the reply carries a nonempty mask, that mask (one boolean
per discrete action index) is returned, never `None`. -/
theorem claim_C9_action_mask :
    ∀ (S : Type) (h : Handler S) (c : Client S) (ag : Agent),
    c.connected = true →
    (h c.server (.action_mask ag)).1.error = none →
    ((clientActionMask h c ag).1 = .ok none ↔
      ((h c.server (.action_mask ag)).1.mask = none ∨
       (h c.server (.action_mask ag)).1.mask = some [])) ∧
    (∀ v, (h c.server (.action_mask ag)).1.mask = some v → v ≠ [] →
      (clientActionMask h c ag).1 = .ok (some v)) := by
  intro S h c ag hc herr
  constructor
  · cases hm : (h c.server (.action_mask ag)).1.mask with
    | none => simp [clientActionMask, sendCmd, hc, herr, hm]
    | some v =>
      by_cases hv : v = [] <;>
        simp [clientActionMask, sendCmd, hc, herr, hm, hv]
  · intro v hm hv
    simp [clientActionMask, sendCmd, hc, herr, hm, hv]

/-- Witness for C9: the server reply `{"mask": [true, false, true]}`
decodes to exactly that vector. -/
theorem claim_C9_action_mask_witness :
    (clientActionMask srvFullMask ⟨true, ()⟩ "p0").1 =
      .ok (some [true, false, true]) :=
  (claim_C9_action_mask Unit srvFullMask ⟨true, ()⟩ "p0" rfl rfl).2
    [true, false, true] rfl (by decide)

/-! ## Claim C10 — `last()` defaults for absent fields -/

/-- Claim C10: when the reply to the `last` command omits the reward,
terminated, truncated and info fields (and the follow-up selection and
observation queries succeed), `last()` returns normally with the defaults
`reward = 0`, `terminated = false`, `truncated = false`, `info = {}`. -/
theorem claim_C10_last_defaults :
    ∀ (S : Type) (h : Handler S) (env : AECEnv S) (ag : Agent)
      (obs : List ℚ),
    env.connected = true → env.client.connected = true →
    (h env.client.server Cmd.last).1.error = none →
    (h env.client.server Cmd.last).1.reward = none →
    (h env.client.server Cmd.last).1.terminated = none →
    (h env.client.server Cmd.last).1.truncated = none →
    (h env.client.server Cmd.last).1.info = none →
    (h (h env.client.server Cmd.last).2 Cmd.agent_selection).1.error =
      none →
    (h (h env.client.server Cmd.last).2 Cmd.agent_selection).1.agent =
      some ag →
    (h (h (h env.client.server Cmd.last).2 Cmd.agent_selection).2
        (Cmd.observe ag)).1.error = none →
    (h (h (h env.client.server Cmd.last).2 Cmd.agent_selection).2
        (Cmd.observe ag)).1.observation = some obs →
    (aecLast h env true).1 = .ok (some obs, 0, false, false, []) := by
  intro S h env ag obs hconn hcconn he1 hrw htm htr hinf he2 hag he3 hobs
  simp [aecLast, clientLast, sendCmd, hcconn, he1, aecAgentSelection,
    AECEnv.withClient, hconn, clientAgentSelection, extractField, he2, hag,
    aecObserve, clientObserve, he3, hobs, hrw, htm, htr, hinf]

/-- Witness for C10: a server whose `last` reply is field-free yields the
default tuple together with the live observation `[3]`. -/
theorem claim_C10_last_defaults_witness :
    (aecLast srvBareLast connEnv true).1 =
      .ok (some [3], 0, false, false, []) :=
  claim_C10_last_defaults Unit srvBareLast connEnv "p0" [3] rfl rfl rfl rfl
    rfl rfl rfl rfl rfl rfl rfl

/-! ## Claim C5 — reset invariance of the caches -/

/-- The single-pattern adapter wrappers reduce to projections. -/
theorem aecRender_eq (h : Handler S) (env : AECEnv S) :
    aecRender h env =
      ((clientRender h env.client).1,
       env.withClient (clientRender h env.client).2.1,
       (clientRender h env.client).2.2) := rfl

/-- Claim C5: on a connected adapter, `reset` leaves the possible-agent
cache and both space caches untouched (so `possible_agents` is identical
after every reset), keeps the adapter connected, and every wire command it
sends is the `reset` itself or a render — never a space or possible-agent
fetch. -/
theorem claim_C5_reset_invariance :
    ∀ (S : Type) (h : Handler S) (env : AECEnv S) (seed : Option Int),
    env.connected = true →
    aecPossibleAgents (aecReset h env seed).2.1 = aecPossibleAgents env ∧
    (aecReset h env seed).2.1.possibleAgentsCache =
      env.possibleAgentsCache ∧
    (aecReset h env seed).2.1.obsSpaces = env.obsSpaces ∧
    (aecReset h env seed).2.1.actSpaces = env.actSpaces ∧
    (aecReset h env seed).2.1.connected = true ∧
    ∀ c ∈ (aecReset h env seed).2.2,
      c = Cmd.reset seed ∨ c = Cmd.render := by
  intro S h env seed hc
  have hinit : connectAndInit h env = (.ok (), env, []) := by
    simp [connectAndInit, hc]
  unfold aecReset
  rw [hinit]
  dsimp only
  rcases hr : clientReset h env.client seed with ⟨res, c2, t2⟩
  have ht2 : t2 = [] ∨ t2 = [Cmd.reset seed] := by
    have hsnd := clientReset_snd h env.client seed
    rw [hr] at hsnd
    have ht2eq : t2 = (sendCmd h env.client (Cmd.reset seed)).2.2 :=
      congrArg Prod.snd hsnd
    rw [ht2eq]
    exact sendCmd_trace h env.client (Cmd.reset seed)
  cases res with
  | error e =>
    refine ⟨rfl, rfl, rfl, rfl, hc, ?_⟩
    intro c hmem
    rcases ht2 with h0 | h0 <;> subst h0 <;> simp_all
  | ok u =>
    dsimp only
    by_cases hrh : (env.withClient c2).renderHuman = true
    · rw [if_pos hrh, aecRender_eq]
      dsimp only
      rcases hr3 : clientRender h (env.withClient c2).client with
        ⟨res3, c3, t3⟩
      have ht3 : t3 = [] ∨ t3 = [Cmd.render] := by
        have hsnd := clientRender_snd h (env.withClient c2).client
        rw [hr3] at hsnd
        have ht3eq :
            t3 = (sendCmd h (env.withClient c2).client Cmd.render).2.2 :=
          congrArg Prod.snd hsnd
        rw [ht3eq]
        exact sendCmd_trace h (env.withClient c2).client Cmd.render
      refine ⟨rfl, rfl, rfl, rfl, hc, ?_⟩
      intro c hmem
      rcases ht2 with h0 | h0 <;> rcases ht3 with h1 | h1 <;>
        subst h0 <;> subst h1 <;> simp_all
    · rw [if_neg hrh]
      refine ⟨rfl, rfl, rfl, rfl, hc, ?_⟩
      intro c hmem
      rcases ht2 with h0 | h0 <;> subst h0 <;> simp_all

/-! Cache/connected-flag preservation of the individual adapter
operations (everything except `reset` and `close` only ever replaces the
embedded client). -/

theorem dropValE_snd (r : ERes S α) : (dropValE r).2 = r.2 := by
  rcases r with ⟨res, e, t⟩
  cases res <;> rfl

theorem aecAgents_caches (h : Handler S) (env : AECEnv S) :
    sameCaches env (aecAgents h env).2.1 := by
  unfold aecAgents
  split <;> exact ⟨rfl, rfl, rfl, rfl⟩

theorem aecAgentSelection_caches (h : Handler S) (env : AECEnv S) :
    sameCaches env (aecAgentSelection h env).2.1 := by
  unfold aecAgentSelection
  split <;> exact ⟨rfl, rfl, rfl, rfl⟩

theorem aecObserve_caches (h : Handler S) (env : AECEnv S) (ag : Agent) :
    sameCaches env (aecObserve h env ag).2.1 :=
  ⟨rfl, rfl, rfl, rfl⟩

theorem aecRender_caches (h : Handler S) (env : AECEnv S) :
    sameCaches env (aecRender h env).2.1 :=
  ⟨rfl, rfl, rfl, rfl⟩

theorem aecStep_caches (h : Handler S) (env : AECEnv S) (a : Option Int) :
    sameCaches env (aecStep h env a).2.1 := by
  unfold aecStep
  split
  · split
    · exact ⟨rfl, rfl, rfl, rfl⟩
    · dsimp only
      split
      · exact ⟨rfl, rfl, rfl, rfl⟩
      · exact ⟨rfl, rfl, rfl, rfl⟩
  · split
    · exact aecRender_caches h env
    · exact sameCaches_refl env

theorem aecLast_caches (h : Handler S) (env : AECEnv S) (b : Bool) :
    sameCaches env (aecLast h env b).2.1 := by
  unfold aecLast
  split
  · exact ⟨rfl, rfl, rfl, rfl⟩
  next result c1 t1 heq =>
    dsimp only
    split
    next e env2 t2 heq2 =>
      have h2 : env2 = (aecAgentSelection h (env.withClient c1)).2.1 := by
        rw [heq2]
      rw [h2]
      exact sameCaches_trans (sameCaches_withClient env c1)
        (aecAgentSelection_caches h (env.withClient c1))
    next ag env2 t2 heq2 =>
      have h2 : env2 = (aecAgentSelection h (env.withClient c1)).2.1 := by
        rw [heq2]
      have hc2 : sameCaches env env2 := by
        rw [h2]
        exact sameCaches_trans (sameCaches_withClient env c1)
          (aecAgentSelection_caches h (env.withClient c1))
      split
      · split
        next e env3 t3 heq3 =>
          have h3 : env3 = (aecObserve h env2 ag).2.1 := by rw [heq3]
          rw [h3]
          exact sameCaches_trans hc2 (aecObserve_caches h env2 ag)
        next obs env3 t3 heq3 =>
          have h3 : env3 = (aecObserve h env2 ag).2.1 := by rw [heq3]
          rw [h3]
          exact sameCaches_trans hc2 (aecObserve_caches h env2 ag)
      · exact hc2

theorem aecRewards_caches (h : Handler S) (env : AECEnv S) :
    sameCaches env (aecRewards h env).2.1 :=
  ⟨rfl, rfl, rfl, rfl⟩

theorem aecTerminations_caches (h : Handler S) (env : AECEnv S) :
    sameCaches env (aecTerminations h env).2.1 :=
  ⟨rfl, rfl, rfl, rfl⟩

theorem aecTruncations_caches (h : Handler S) (env : AECEnv S) :
    sameCaches env (aecTruncations h env).2.1 :=
  ⟨rfl, rfl, rfl, rfl⟩

theorem aecInfos_caches (h : Handler S) (env : AECEnv S) :
    sameCaches env (aecInfos h env).2.1 :=
  ⟨rfl, rfl, rfl, rfl⟩

theorem aecActionMask_caches (h : Handler S) (env : AECEnv S)
    (ag : Agent) : sameCaches env (aecActionMask h env ag).2.1 :=
  ⟨rfl, rfl, rfl, rfl⟩

/-- Every adapter operation other than `close` (and `reset`, which is not
in the dispatcher) preserves the caches and the connected flag. -/
theorem runAECOp_caches (h : Handler S) (env : AECEnv S) (op : AECOp)
    (ag : Agent) (hop : op ≠ .closeOp) :
    sameCaches env (runAECOp h env op ag).2.1 := by
  have hdv : ∀ (α : Type) (r : ERes S α),
      sameCaches env r.2.1 → sameCaches env (dropValE r).2.1 := by
    intro α r hs
    have := dropValE_snd r
    have h21 : (dropValE r).2.1 = r.2.1 := congrArg Prod.fst this
    rw [h21]
    exact hs
  cases op with
  | possibleAgentsQ => exact sameCaches_refl env
  | agentsQ => exact hdv _ _ (aecAgents_caches h env)
  | numAgentsQ => exact hdv _ _ (aecAgents_caches h env)
  | agentSelectionQ => exact hdv _ _ (aecAgentSelection_caches h env)
  | observationSpaceQ => exact sameCaches_refl env
  | actionSpaceQ => exact sameCaches_refl env
  | stepOp a => exact aecStep_caches h env a
  | observeOp => exact hdv _ _ (aecObserve_caches h env ag)
  | lastOp b => exact hdv _ _ (aecLast_caches h env b)
  | rewardsQ => exact hdv _ _ (aecRewards_caches h env)
  | terminationsQ => exact hdv _ _ (aecTerminations_caches h env)
  | truncationsQ => exact hdv _ _ (aecTruncations_caches h env)
  | infosQ => exact hdv _ _ (aecInfos_caches h env)
  | actionMaskQ => exact hdv _ _ (aecActionMask_caches h env ag)
  | renderOp => exact hdv _ _ (aecRender_caches h env)
  | closeOp => exact absurd rfl hop

/-! ## Claim C3 — server-error replies -/

/-- Claim C3 as stated fails: `close` is a command sent while connected,
and when the server answers it with `{"error": "boom"}` the client's
`close()` swallows the exception and returns normally instead of raising
an error containing the server's string. -/
theorem claim_C3_counterexample :
    (srvBoom () Cmd.close).1.error = some "boom" ∧
    (runMethod srvBoom ⟨true, ()⟩ .close none 0 "p0").1 = .ok () :=
  ⟨rfl, rfl⟩

/-- Claim C3 (amended): for every command other than `close` sent while
connected, a reply carrying an error field makes the client raise the
server error, whose message `"Server error: " ++ msg` contains the
server's string, with the connected flag still set; and every adapter
operation other than `close` leaves the adapter's local caches and
connected flag unchanged (`close`, by design, swallows server errors
during shutdown). -/
theorem claim_C3_server_error :
    (∀ (S : Type) (h : Handler S) (c : Client S) (m : Method)
       (seed : Option Int) (action : Int) (agent : Agent) (msg : String),
      c.connected = true → m ≠ .close →
      (h c.server (methodCmd m seed action agent)).1.error = some msg →
      (runMethod h c m seed action agent).1 =
        .error (.serverError ("Server error: " ++ msg)) ∧
      (runMethod h c m seed action agent).2.1.connected = true ∧
      ∃ pre post, "Server error: " ++ msg = pre ++ msg ++ post) ∧
    (∀ (S : Type) (h : Handler S) (env : AECEnv S) (op : AECOp)
       (ag : Agent), op ≠ .closeOp →
      sameCaches env (runAECOp h env op ag).2.1) := by
  constructor
  · intro S h c m seed action agent msg hc hne herr
    have hs := sendCmd_server_error h c (methodCmd m seed action agent)
      msg hc herr
    refine ⟨?_, ?_, "Server error: ", "", (String.append_empty _).symm⟩
    all_goals
      cases m
      all_goals first
      | exact absurd rfl hne
      | (simp only [methodCmd] at hs
         simp [runMethod, dropVal, clientReset, clientStep, clientObserve,
           clientLast, clientAgents, clientPossibleAgents,
           clientAgentSelection, clientObservationSpace, clientActionSpace,
           clientRewards, clientTerminations, clientTruncations,
           clientInfos, clientActionMask, clientRender, clientPing,
           clientEnvInfo, extractField, hs])
  · intro S h env op ag hop
    exact runAECOp_caches h env op ag hop

/-- Witness for C3: a `step` answered with `{"error": "boom"}` raises the
server error (message containing "boom") on a still-connected client, and
the AEC `step` operation leaves the adapter caches unchanged. -/
theorem claim_C3_server_error_witness :
    (runMethod srvBoom ⟨true, ()⟩ .step none 7 "p0").1 =
      .error (.serverError ("Server error: " ++ "boom")) ∧
    sameCaches connEnv
      (runAECOp srvBoom connEnv (.stepOp (some 7)) "p0").2.1 :=
  ⟨(claim_C3_server_error.1 Unit srvBoom ⟨true, ()⟩ .step none 7 "p0"
      "boom" rfl (by decide) rfl).1,
   claim_C3_server_error.2 Unit srvBoom connEnv (.stepOp (some 7)) "p0"
     (by decide)⟩

/-! ## Claim C8 — close idempotence and silence after close -/

theorem aecClose_eq (h : Handler S) (env : AECEnv S) :
    aecClose h env =
      if env.connected = true then
        (.ok (),
         { env with
             client := (clientClose h env.client).2.1
             connected := false },
         (clientClose h env.client).2.2)
      else (.ok (), env, []) := by
  unfold aecClose
  split <;> rfl

/-- On a closed adapter (both the `_connected` flag and the socket handle
cleared), every adapter operation sends nothing on the wire. -/
theorem runAECOp_closed_no_wire (h : Handler S) (env : AECEnv S)
    (hconn : env.connected = false) (hcc : env.client.connected = false) :
    ∀ (op : AECOp) (ag : Agent), (runAECOp h env op ag).2.2 = [] := by
  intro op ag
  have hsend : ∀ cmd,
      sendCmd h env.client cmd = (.error .notConnected, env.client, []) :=
    fun cmd => sendCmd_disconnected h env.client cmd hcc
  cases op with
  | possibleAgentsQ => rfl
  | agentsQ => simp [runAECOp, dropValE, aecAgents, hconn]
  | numAgentsQ => simp [runAECOp, dropValE, aecAgents, hconn]
  | agentSelectionQ => simp [runAECOp, dropValE, aecAgentSelection, hconn]
  | observationSpaceQ => rfl
  | actionSpaceQ => rfl
  | stepOp a =>
    cases a with
    | none =>
      simp only [runAECOp, aecStep]
      split <;> simp [aecRender, clientRender, hsend]
    | some a => simp [runAECOp, aecStep, clientStep, hsend]
  | observeOp =>
    simp [runAECOp, dropValE, aecObserve, clientObserve, extractField,
      hsend]
  | lastOp b =>
    simp [runAECOp, dropValE, aecLast, clientLast, hsend]
  | rewardsQ =>
    simp [runAECOp, dropValE, aecRewards, clientRewards, extractField,
      hsend]
  | terminationsQ =>
    simp [runAECOp, dropValE, aecTerminations, clientTerminations,
      extractField, hsend]
  | truncationsQ =>
    simp [runAECOp, dropValE, aecTruncations, clientTruncations,
      extractField, hsend]
  | infosQ =>
    simp [runAECOp, dropValE, aecInfos, clientInfos, extractField, hsend]
  | actionMaskQ =>
    simp [runAECOp, dropValE, aecActionMask, clientActionMask, hsend]
  | renderOp => simp [runAECOp, dropValE, aecRender, clientRender, hsend]
  | closeOp => simp [runAECOp, aecClose, hconn]

/-- Claim C8: closing never raises and is idempotent — a second adapter
`close` (and a second client `close`) returns normally and sends nothing —
and after `close` the adapter is fully disconnected, so no adapter
operation (short of `reset`'s fresh connect) sends any command. -/
theorem claim_C8_close_idempotent :
    ∀ (S : Type) (h : Handler S) (env : AECEnv S),
    env.client.connected = env.connected →
    (aecClose h env).1 = .ok () ∧
    (aecClose h (aecClose h env).2.1).1 = .ok () ∧
    (aecClose h (aecClose h env).2.1).2.2 = [] ∧
    (aecClose h env).2.1.connected = false ∧
    (aecClose h env).2.1.client.connected = false ∧
    (∀ c : Client S,
      (clientClose h (clientClose h c).2.1).1 = .ok () ∧
      (clientClose h (clientClose h c).2.1).2.2 = []) ∧
    (∀ (op : AECOp) (ag : Agent),
      (runAECOp h (aecClose h env).2.1 op ag).2.2 = []) := by
  intro S h env hsync
  have hclient : ∀ c : Client S, (clientClose h c).2.1.connected = false := by
    intro c
    have := (clientClose_aux h c).2.1
    rw [this]
  have hstate : (aecClose h env).2.1.connected = false ∧
      (aecClose h env).2.1.client.connected = false := by
    rw [aecClose_eq]
    by_cases hc : env.connected = true
    · rw [if_pos hc]
      exact ⟨rfl, hclient env.client⟩
    · rw [if_neg hc]
      have hcf : env.connected = false := by
        cases henv : env.connected
        · rfl
        · exact absurd henv hc
      exact ⟨hcf, hsync.trans hcf⟩
  have hfirst : (aecClose h env).1 = .ok () := by
    rw [aecClose_eq]
    by_cases hc : env.connected = true
    · rw [if_pos hc]
    · rw [if_neg hc]
  have hsecond : aecClose h (aecClose h env).2.1 =
      (.ok (), (aecClose h env).2.1, []) := by
    rw [aecClose_eq h (aecClose h env).2.1]
    rw [if_neg (by rw [hstate.1]; exact Bool.false_ne_true)]
  refine ⟨hfirst, ?_, ?_, hstate.1, hstate.2, ?_, ?_⟩
  · rw [hsecond]
  · rw [hsecond]
  · intro c
    have h1 := (clientClose_aux h c).2.1
    constructor
    · exact (clientClose_aux h (clientClose h c).2.1).1
    · have h2 := (clientClose_aux h (clientClose h c).2.1).2.2
      rw [h2, sendCmd_disconnected h _ .close (hclient c)]
  · intro op ag
    exact runAECOp_closed_no_wire h (aecClose h env).2.1 hstate.1
      hstate.2 op ag

/-- Witness for C8 on a concrete connected adapter. -/
theorem claim_C8_close_idempotent_witness :
    (aecClose srvNice connEnv).1 = .ok () ∧
    (aecClose srvNice (aecClose srvNice connEnv).2.1).1 = .ok () ∧
    (aecClose srvNice (aecClose srvNice connEnv).2.1).2.2 = [] ∧
    (runAECOp srvNice (aecClose srvNice connEnv).2.1
      (.stepOp (some 0)) "p0").2.2 = [] :=
  have h := claim_C8_close_idempotent Unit srvNice connEnv rfl
  ⟨h.1, h.2.1, h.2.2.1, h.2.2.2.2.2.2 (.stepOp (some 0)) "p0"⟩

/-- Witness for C5: reset with seed 42 on a concrete connected adapter
keeps the (empty-cached) possible-agent list and spaces and sends only
the reset command. -/
theorem claim_C5_reset_invariance_witness :
    aecPossibleAgents (aecReset srvNice connEnv (some 42)).2.1 =
      aecPossibleAgents connEnv ∧
    (aecReset srvNice connEnv (some 42)).2.1.obsSpaces =
      connEnv.obsSpaces ∧
    (aecReset srvNice connEnv (some 42)).2.1.connected = true :=
  have h := claim_C5_reset_invariance Unit srvNice connEnv (some 42) rfl
  ⟨h.1, h.2.2.1, h.2.2.2.2.1⟩

/-! ## Claim C2 — `agent_iter` -/

/-- Claim C2 as stated fails: against a server that keeps `"p0"` selected
and reports it terminated, the iterator still yields `"p0"` — an agent for
which `last().terminated` is true at the moment of yielding — and yields
it twice consecutively although the active set has two agents. -/
theorem claim_C2_counterexample :
    (agentIterRun srvTermSel (fun _ s => s) connEnv 2).1 =
      .ok ["p0", "p0"] ∧
    (aecLast srvTermSel connEnv true).1 = .ok (some [], 0, true, false, []) ∧
    (aecAgents srvTermSel connEnv).1 = .ok ["p0", "p1"] :=
  ⟨rfl, rfl, rfl⟩

/-- Claim C2 (amended): `agent_iter` yields the server-reported
`agent_selection` whenever the server-reported active set is nonempty and
fewer than `max_iter` yields have occurred — without consulting `last()`
or filtering by terminated/truncated status, and without any protection
against consecutive duplicates — so the yield sequence is finite (at most
`max_iter` long) and empty as soon as the active set is reported empty. -/
theorem claim_C2_agent_iter :
    ∀ (S : Type) (h : Handler S) (act : Agent → S → S) (env : AECEnv S)
      (n : Nat) (l : List Agent),
    ((agentIterRun h act env n).1 = .ok l → l.length ≤ n) ∧
    ((aecAgents h env).1 = .ok [] → (agentIterRun h act env n).1 = .ok []) := by
  intro S h act env n l
  constructor
  · induction n generalizing env l with
    | zero =>
      intro hrun
      unfold agentIterRun at hrun
      rcases hA : aecAgents h env with ⟨res, env', t⟩
      rw [hA] at hrun
      cases res with
      | error e => simp at hrun
      | ok as =>
        simp at hrun
        subst hrun
        simp
    | succ m ih =>
      intro hrun
      unfold agentIterRun at hrun
      rcases hA : aecAgents h env with ⟨res, env', t⟩
      rw [hA] at hrun
      cases res with
      | error e => simp at hrun
      | ok as =>
        cases as with
        | nil =>
          simp at hrun
          subst hrun
          simp
        | cons a rest =>
          dsimp only at hrun
          rcases hS : aecAgentSelection h env' with ⟨res2, env'', t2⟩
          rw [hS] at hrun
          cases res2 with
          | error e => simp at hrun
          | ok sel =>
            dsimp only at hrun
            rcases hR : agentIterRun h act
                { env'' with
                    client :=
                      ⟨env''.client.connected, act sel env''.client.server⟩ }
                m with ⟨res3, envF⟩
            rw [hR] at hrun
            cases res3 with
            | error e => simp at hrun
            | ok as' =>
              simp at hrun
              subst hrun
              have := ih _ _ (by rw [hR])
              simpa using Nat.succ_le_succ this
  · intro hA
    cases n with
    | zero =>
      unfold agentIterRun
      rcases hA2 : aecAgents h env with ⟨res, env', t⟩
      rw [hA2] at hA
      simp at hA
      subst hA
      rfl
    | succ m =>
      unfold agentIterRun
      rcases hA2 : aecAgents h env with ⟨res, env', t⟩
      rw [hA2] at hA
      simp at hA
      subst hA
      rfl

/-- Witness for C2 (amended): on the concrete server the run of budget 2
yields at most 2 agents, and a server reporting an empty active set yields
none. -/
theorem claim_C2_agent_iter_witness :
    (["p0", "p0"] : List Agent).length ≤ 2 ∧
    (agentIterRun srvNice (fun _ s => s) closedEnv 3).1 = .ok [] :=
  ⟨(claim_C2_agent_iter Unit srvTermSel (fun _ s => s) connEnv 2
      ["p0", "p0"]).1 rfl,
   (claim_C2_agent_iter Unit srvNice (fun _ s => s) closedEnv 3 []).2 rfl⟩

/-! ## Claim C1 — parallel round stepping -/

theorem countSteps_nil : countSteps [] = 0 := rfl

theorem countSteps_append (t1 t2 : List Cmd) :
    countSteps (t1 ++ t2) = countSteps t1 + countSteps t2 := by
  simp [countSteps, List.filter_append]

theorem countSteps_sendCmd (h : Handler S) (c : Client S) (cmd : Cmd)
    (hcmd : isStepCmd cmd = false) :
    countSteps (sendCmd h c cmd).2.2 = 0 := by
  rcases sendCmd_trace h c cmd with h0 | h0 <;> rw [h0] <;>
    simp [countSteps, List.filter, hcmd]

theorem countSteps_sendCmd_le (h : Handler S) (c : Client S) (cmd : Cmd) :
    countSteps (sendCmd h c cmd).2.2 ≤ 1 := by
  rcases sendCmd_trace h c cmd with h0 | h0 <;> rw [h0]
  · simp [countSteps]
  · cases hi : isStepCmd cmd <;> simp [countSteps, List.filter, hi]

theorem clientAgents_snd (h : Handler S) (c : Client S) :
    (clientAgents h c).2 = (sendCmd h c .agents).2 :=
  extractField_snd _ _ _

theorem clientAgentSelection_snd (h : Handler S) (c : Client S) :
    (clientAgentSelection h c).2 = (sendCmd h c .agent_selection).2 :=
  extractField_snd _ _ _

theorem clientObserve_snd (h : Handler S) (c : Client S) (ag : Agent) :
    (clientObserve h c ag).2 = (sendCmd h c (.observe ag)).2 :=
  extractField_snd _ _ _

theorem clientRewards_snd (h : Handler S) (c : Client S) :
    (clientRewards h c).2 = (sendCmd h c .rewards).2 :=
  extractField_snd _ _ _

theorem clientTerminations_snd (h : Handler S) (c : Client S) :
    (clientTerminations h c).2 = (sendCmd h c .terminations).2 :=
  extractField_snd _ _ _

theorem clientTruncations_snd (h : Handler S) (c : Client S) :
    (clientTruncations h c).2 = (sendCmd h c .truncations).2 :=
  extractField_snd _ _ _

theorem clientInfos_snd (h : Handler S) (c : Client S) :
    (clientInfos h c).2 = (sendCmd h c .infos).2 :=
  extractField_snd _ _ _

theorem countSteps_aecAgents (h : Handler S) (env : AECEnv S) :
    countSteps (aecAgents h env).2.2 = 0 := by
  unfold aecAgents
  split
  · show countSteps (clientAgents h env.client).2.2 = 0
    rw [congrArg Prod.snd (clientAgents_snd h env.client)]
    exact countSteps_sendCmd h env.client .agents rfl
  · rfl

theorem countSteps_aecAgentSelection (h : Handler S) (env : AECEnv S) :
    countSteps (aecAgentSelection h env).2.2 = 0 := by
  unfold aecAgentSelection
  split
  · show countSteps (clientAgentSelection h env.client).2.2 = 0
    rw [congrArg Prod.snd (clientAgentSelection_snd h env.client)]
    exact countSteps_sendCmd h env.client .agent_selection rfl
  · rfl

theorem countSteps_aecObserve (h : Handler S) (env : AECEnv S)
    (ag : Agent) : countSteps (aecObserve h env ag).2.2 = 0 := by
  show countSteps (clientObserve h env.client ag).2.2 = 0
  rw [congrArg Prod.snd (clientObserve_snd h env.client ag)]
  exact countSteps_sendCmd h env.client (.observe ag) rfl

theorem countSteps_aecRender (h : Handler S) (env : AECEnv S) :
    countSteps (aecRender h env).2.2 = 0 := by
  show countSteps (clientRender h env.client).2.2 = 0
  rw [congrArg Prod.snd (clientRender_snd h env.client)]
  exact countSteps_sendCmd h env.client .render rfl

theorem countSteps_aecRewards (h : Handler S) (env : AECEnv S) :
    countSteps (aecRewards h env).2.2 = 0 := by
  show countSteps (clientRewards h env.client).2.2 = 0
  rw [congrArg Prod.snd (clientRewards_snd h env.client)]
  exact countSteps_sendCmd h env.client .rewards rfl

theorem countSteps_aecTerminations (h : Handler S) (env : AECEnv S) :
    countSteps (aecTerminations h env).2.2 = 0 := by
  show countSteps (clientTerminations h env.client).2.2 = 0
  rw [congrArg Prod.snd (clientTerminations_snd h env.client)]
  exact countSteps_sendCmd h env.client .terminations rfl

theorem countSteps_aecTruncations (h : Handler S) (env : AECEnv S) :
    countSteps (aecTruncations h env).2.2 = 0 := by
  show countSteps (clientTruncations h env.client).2.2 = 0
  rw [congrArg Prod.snd (clientTruncations_snd h env.client)]
  exact countSteps_sendCmd h env.client .truncations rfl

theorem countSteps_aecInfos (h : Handler S) (env : AECEnv S) :
    countSteps (aecInfos h env).2.2 = 0 := by
  show countSteps (clientInfos h env.client).2.2 = 0
  rw [congrArg Prod.snd (clientInfos_snd h env.client)]
  exact countSteps_sendCmd h env.client .infos rfl

/-- One AEC step issues at most one wire `step`. -/
theorem countSteps_aecStep_le (h : Handler S) (env : AECEnv S)
    (a : Option Int) : countSteps (aecStep h env a).2.2 ≤ 1 := by
  unfold aecStep
  split
  next a' =>
    split
    next e c' t heq =>
      have ht : t = (sendCmd h env.client (.step a')).2.2 := by
        have hsnd := clientStep_snd h env.client a'
        rw [heq] at hsnd
        exact congrArg Prod.snd hsnd
      show countSteps t ≤ 1
      rw [ht]
      exact countSteps_sendCmd_le h env.client _
    next u c' t heq =>
      have ht : t = (sendCmd h env.client (.step a')).2.2 := by
        have hsnd := clientStep_snd h env.client a'
        rw [heq] at hsnd
        exact congrArg Prod.snd hsnd
      have ht1 : countSteps t ≤ 1 := by
        rw [ht]; exact countSteps_sendCmd_le h env.client _
      dsimp only
      split
      · rw [countSteps_append,
          countSteps_aecRender h (env.withClient c')]
        simpa using ht1
      · exact ht1
  next =>
    split
    · rw [show countSteps (aecRender h env).2.2 = 0 from
        countSteps_aecRender h env]
      exact Nat.zero_le 1
    · exact Nat.zero_le 1

theorem countSteps_observeAll (h : Handler S) :
    ∀ (lst : List Agent) (env : AECEnv S),
    countSteps (observeAll h env lst).2.2 = 0 := by
  intro lst
  induction lst with
  | nil => intro env; rfl
  | cons ag rest ih =>
    intro env
    unfold observeAll
    rcases hO : aecObserve h env ag with ⟨res, env', t⟩
    have ht : countSteps t = 0 := by
      have hx := countSteps_aecObserve h env ag
      rw [hO] at hx
      exact hx
    cases res with
    | error e => exact ht
    | ok o =>
      dsimp only
      rcases hR : observeAll h env' rest with ⟨res2, envF, t'⟩
      have ht' : countSteps t' = 0 := by
        have hx := ih env'
        rw [hR] at hx
        exact hx
      cases res2 <;> dsimp only <;> rw [countSteps_append, ht, ht']

/-- The per-agent loop of the parallel `step` issues at most one wire
`step` per listed agent that has an entry in the action map. -/
theorem parallelStepLoop_steps (h : Handler S)
    (actions : List (Agent × Int)) :
    ∀ (lst : List Agent) (env : AECEnv S),
    countSteps (parallelStepLoop h actions env lst).2.2 ≤
      (lst.filter fun a => (actions.lookup a).isSome).length := by
  intro lst
  induction lst with
  | nil => intro env; simp [parallelStepLoop, countSteps]
  | cons ag rest ih =>
    intro env
    unfold parallelStepLoop
    cases hl : actions.lookup ag with
    | none =>
      dsimp only
      have hfilter :
          ((ag :: rest).filter fun a => (actions.lookup a).isSome) =
            rest.filter fun a => (actions.lookup a).isSome := by
        simp [List.filter_cons, hl]
      rw [hfilter]
      exact ih env
    | some act =>
      dsimp only
      have hfilter :
          (((ag :: rest).filter fun a =>
            (actions.lookup a).isSome).length) =
            (rest.filter fun a => (actions.lookup a).isSome).length + 1 := by
        simp [List.filter_cons, hl]
      rw [hfilter]
      rcases hS : aecAgentSelection h env with ⟨res, env', t⟩
      have ht : countSteps t = 0 := by
        have hx := countSteps_aecAgentSelection h env
        rw [hS] at hx
        exact hx
      cases res with
      | error e => dsimp only; rw [show countSteps t = 0 from ht]; simp
      | ok cur =>
        dsimp only
        by_cases hc : cur = ag
        · rw [if_pos hc]
          rcases hT : aecStep h env' (some act) with ⟨res2, env'', t'⟩
          have ht' : countSteps t' ≤ 1 := by
            have hx := countSteps_aecStep_le h env' (some act)
            rw [hT] at hx
            exact hx
          cases res2 with
          | error e =>
            dsimp only
            rw [countSteps_append, ht]
            omega
          | ok u =>
            dsimp only
            rcases hL : parallelStepLoop h actions env'' rest with
              ⟨res3, envF, t''⟩
            have ht'' : countSteps t'' ≤
                (rest.filter fun a => (actions.lookup a).isSome).length := by
              have hx := ih env''
              rw [hL] at hx
              exact hx
            dsimp only
            rw [countSteps_append, countSteps_append, ht]
            omega
        · rw [if_neg hc]
          rcases hL : parallelStepLoop h actions env' rest with
            ⟨res3, envF, t''⟩
          have ht'' : countSteps t'' ≤
              (rest.filter fun a => (actions.lookup a).isSome).length := by
            have hx := ih env'
            rw [hL] at hx
            exact hx
          dsimp only
          rw [countSteps_append, ht]
          omega

/-- Claim C1 as stated fails: with active agents `["a", "b"]` but the
server selecting `"b"` throughout, a full-round `step` call issues only
one wire step — agent `"a"`, active at round start, gets none — and the
returned termination map `{"b": false}` does not contain exactly the
round-start agents. -/
theorem claim_C1_counterexample :
    (aecAgents srvTurnB connEnv).1 = .ok ["a", "b"] ∧
    countSteps
      (parallelStep srvTurnB connEnv [("a", 0), ("b", 1)]).2.2 = 1 ∧
    Except.map (fun r => r.2.2.1)
      (parallelStep srvTurnB connEnv [("a", 0), ("b", 1)]).1 =
      .ok [("b", false)] :=
  ⟨rfl, rfl, rfl⟩

/-- Claim C1 (amended): one parallel `step` call issues at most one
underlying sequential step per round-start active agent with an entry in
`actionsByAgent` — an agent is stepped only when the server reports it as
currently selected at its loop position, and may receive zero steps — and
the returned reward/termination maps are simply the server's post-round
replies, not necessarily keyed by the round-start active set. -/
theorem claim_C1_parallel_step :
    ∀ (S : Type) (h : Handler S) (env : AECEnv S)
      (actions : List (Agent × Int)) (l : List Agent),
    (aecAgents h env).1 = .ok l →
    countSteps (parallelStep h env actions).2.2 ≤
      (l.filter fun a => (actions.lookup a).isSome).length := by
  intro S h env actions l hA
  unfold parallelStep
  rcases hA2 : aecAgents h env with ⟨res, env1, t1⟩
  rw [hA2] at hA
  have ht1 : countSteps t1 = 0 := by
    have hx := countSteps_aecAgents h env
    rw [hA2] at hx
    exact hx
  simp at hA
  subst hA
  dsimp only
  rcases hL : parallelStepLoop h actions env1 l with ⟨res2, env2, t2⟩
  have ht2 : countSteps t2 ≤
      (l.filter fun a => (actions.lookup a).isSome).length := by
    have hx := parallelStepLoop_steps h actions l env1
    rw [hL] at hx
    exact hx
  cases res2 with
  | error e =>
    dsimp only
    rw [countSteps_append, ht1]
    omega
  | ok u =>
    dsimp only
    rcases hA3 : aecAgents h env2 with ⟨res3, env3, t3⟩
    have ht3 : countSteps t3 = 0 := by
      have hx := countSteps_aecAgents h env2
      rw [hA3] at hx
      exact hx
    cases res3 with
    | error e =>
      dsimp only
      rw [countSteps_append, countSteps_append, ht1, ht3]
      omega
    | ok cur =>
      dsimp only
      rcases hO : observeAll h env3 cur with ⟨res4, env4, t4⟩
      have ht4 : countSteps t4 = 0 := by
        have hx := countSteps_observeAll h cur env3
        rw [hO] at hx
        exact hx
      cases res4 with
      | error e =>
        dsimp only
        rw [countSteps_append, countSteps_append, countSteps_append,
          ht1, ht3, ht4]
        omega
      | ok obs =>
        dsimp only
        rcases hR : aecRewards h env4 with ⟨res5, env5, t5⟩
        have ht5 : countSteps t5 = 0 := by
          have hx := countSteps_aecRewards h env4
          rw [hR] at hx
          exact hx
        cases res5 with
        | error e =>
          dsimp only
          rw [countSteps_append, countSteps_append, countSteps_append,
            countSteps_append, ht1, ht3, ht4, ht5]
          omega
        | ok rew =>
          dsimp only
          rcases hTm : aecTerminations h env5 with ⟨res6, env6, t6⟩
          have ht6 : countSteps t6 = 0 := by
            have hx := countSteps_aecTerminations h env5
            rw [hTm] at hx
            exact hx
          cases res6 with
          | error e =>
            dsimp only
            rw [countSteps_append, countSteps_append, countSteps_append,
              countSteps_append, countSteps_append, ht1, ht3, ht4, ht5,
              ht6]
            omega
          | ok term =>
            dsimp only
            rcases hTc : aecTruncations h env6 with ⟨res7, env7, t7⟩
            have ht7 : countSteps t7 = 0 := by
              have hx := countSteps_aecTruncations h env6
              rw [hTc] at hx
              exact hx
            cases res7 with
            | error e =>
              dsimp only
              rw [countSteps_append, countSteps_append,
                countSteps_append, countSteps_append, countSteps_append,
                countSteps_append, ht1, ht3, ht4, ht5, ht6, ht7]
              omega
            | ok trunc =>
              dsimp only
              rcases hI : aecInfos h env7 with ⟨res8, env8, t8⟩
              have ht8 : countSteps t8 = 0 := by
                have hx := countSteps_aecInfos h env7
                rw [hI] at hx
                exact hx
              cases res8 with
              | error e =>
                dsimp only
                rw [countSteps_append, countSteps_append,
                  countSteps_append, countSteps_append,
                  countSteps_append, countSteps_append,
                  countSteps_append, ht1, ht3, ht4, ht5, ht6, ht7, ht8]
                omega
              | ok inf =>
                dsimp only
                rw [countSteps_append, countSteps_append,
                  countSteps_append, countSteps_append,
                  countSteps_append, countSteps_append,
                  countSteps_append, ht1, ht3, ht4, ht5, ht6, ht7, ht8]
                omega

/-- Witness for C1 (amended) in the concrete two-agent round. -/
theorem claim_C1_parallel_step_witness :
    countSteps
      (parallelStep srvTurnB connEnv [("a", 0), ("b", 1)]).2.2 ≤
      ((["a", "b"] : List Agent).filter fun a =>
        (([("a", 0), ("b", 1)] : List (Agent × Int)).lookup a).isSome
      ).length :=
  claim_C1_parallel_step Unit srvTurnB connEnv [("a", 0), ("b", 1)]
    ["a", "b"] rfl

end HyperToken
